import Mathlib

/-!
Verification of the browser-login credential pipeline of brings-cli.

The definitions below are a shallow embedding of the Go sources:
* the CLI JWT helpers (`decodeJWT`, `toFloat`, the expiry test) from the
  CLI command file;
* the browser-auth pipeline (`waitForLogin`/`loginDetected`,
  the `/bringauth` response interceptor with its capacity-1 non-blocking
  handoff, `extractAuthFromStorage` with its heuristic fallback scan, and
  `finalizeAuthResult`) from the browser-auth file in `internal/cli`.

Machine reals are avoided: JSON numbers are modeled as rationals (Go routes
them through float64; the two agree on the integer-valued timestamps all
statements here are about), and byte strings are lists of naturals.
-/

namespace Brings

/-- Go `strings.Contains(s, pat)` on character lists. -/
def containsSubstring (s pat : List Char) : Bool :=
  match s with
  | [] => List.isPrefixOf pat []
  | _ :: rest => List.isPrefixOf pat s || containsSubstring rest pat

/-- Go `strings.Split(s, sep)` for a single-character separator:
splits at every occurrence, keeping empty segments (so the result always
has (number of separators + 1) parts). -/
def splitOnChar (sep : Char) : List Char → List (List Char)
  | [] => [[]]
  | c :: rest =>
    if c = sep then [] :: splitOnChar sep rest
    else
      match splitOnChar sep rest with
      | [] => [[c]]
      | p :: ps => (c :: p) :: ps

/-- JSON values as produced by `encoding/json` unmarshalling into
`interface\x7b\x7d` (numbers as rationals, object fields kept in textual
order with duplicates preserved). -/
inductive Json where
  | null : Json
  | bool : Bool → Json
  | num : ℚ → Json
  | str : String → Json
  | arr : List Json → Json
  | obj : List (String × Json) → Json

/-- Lookup in a JSON object the way a Go map produced by `encoding/json`
behaves: a duplicated key keeps the value of its last occurrence. -/
def lastLookup : List (String × Json) → String → Option Json
  | [], _ => none
  | (k, v) :: rest, q =>
    match lastLookup rest q with
    | some r => some r
    | none => if k = q then some v else none

/-- JSON / JavaScript whitespace accepted between tokens. -/
def isJsonWs (c : Char) : Bool :=
  c = ' ' || c = '\t' || c = '\n' || c = '\r'

def skipWs (cs : List Char) : List Char :=
  cs.dropWhile isJsonWs

def isDigitChar (c : Char) : Bool :=
  '0' ≤ c && c ≤ '9'

def hexVal (c : Char) : Option Nat :=
  if '0' ≤ c && c ≤ '9' then some (c.toNat - 48)
  else if 'a' ≤ c && c ≤ 'f' then some (c.toNat - 97 + 10)
  else if 'A' ≤ c && c ≤ 'F' then some (c.toNat - 65 + 10)
  else none

/-- Decode the body of a JSON string literal (after the opening quote),
returning the decoded characters and the input after the closing quote.
Escapes follow `encoding/json`, except that `\u` surrogate halves are each
replaced by U+FFFD without pair-combining (no input considered here uses
non-BMP escapes). -/
def strBody : List Char → Option (List Char × List Char)
  | [] => none
  | '"' :: rest => some ([], rest)
  | '\\' :: 'u' :: h1 :: h2 :: h3 :: h4 :: rest =>
    match hexVal h1, hexVal h2, hexVal h3, hexVal h4 with
    | some a, some b, some c, some d =>
      let n := ((a * 16 + b) * 16 + c) * 16 + d
      let ch := if 0xD800 ≤ n && n ≤ 0xDFFF then '�' else Char.ofNat n
      match strBody rest with
      | some (s, r) => some (ch :: s, r)
      | none => none
    | _, _, _, _ => none
  | '\\' :: e :: rest =>
    let esc : Option Char :=
      if e = '"' then some '"'
      else if e = '\\' then some '\\'
      else if e = '/' then some '/'
      else if e = 'b' then some (Char.ofNat 8)
      else if e = 'f' then some (Char.ofNat 12)
      else if e = 'n' then some '\n'
      else if e = 'r' then some '\r'
      else if e = 't' then some '\t'
      else none
    match esc with
    | none => none
    | some c =>
      match strBody rest with
      | some (s, r) => some (c :: s, r)
      | none => none
  | c :: rest =>
    if c.toNat < 0x20 then none
    else
      match strBody rest with
      | some (s, r) => some (c :: s, r)
      | none => none

def digitsToNat (ds : List Char) : Nat :=
  ds.foldl (fun acc c => acc * 10 + (c.toNat - 48)) 0

def pow10 : Nat → Nat
  | 0 => 1
  | Nat.succ n => 10 * pow10 n

/-- The rational value of a decimal literal with sign, integer digits,
fraction digits and a signed decimal exponent. -/
def decRat (neg : Bool) (ip fr : List Char) (eneg : Bool) (ed : List Char) : ℚ :=
  let m : Int := Int.ofNat (digitsToNat (ip ++ fr))
  let m : Int := if neg then -m else m
  let e : Int :=
    (if eneg then -(Int.ofNat (digitsToNat ed)) else Int.ofNat (digitsToNat ed)) -
      Int.ofNat fr.length
  if 0 ≤ e then mkRat (m * Int.ofNat (pow10 e.toNat)) 1
  else mkRat m (pow10 (-e).toNat)

/-- Parse a JSON number (`-? int frac? exp?` with `int = 0 | [1-9][0-9]*`)
into a rational, returning the remaining input. -/
def parseNum (cs : List Char) : Option (ℚ × List Char) :=
  let (neg, cs1) :=
    match cs with
    | '-' :: rest => (true, rest)
    | _ => (false, cs)
  let ip := cs1.takeWhile isDigitChar
  let cs2 := cs1.dropWhile isDigitChar
  if ip.isEmpty then none
  else if ip.length > 1 && ip.headD '0' = '0' then none
  else
    match cs2 with
    | '.' :: rest =>
      let f := rest.takeWhile isDigitChar
      if f.isEmpty then none
      else parseNumTail neg ip f (rest.dropWhile isDigitChar)
    | _ => parseNumTail neg ip [] cs2
where
  parseNumTail (neg : Bool) (ip f : List Char) (cs : List Char) :
      Option (ℚ × List Char) :=
    match cs with
    | 'e' :: rest => parseNumExp neg ip f rest
    | 'E' :: rest => parseNumExp neg ip f rest
    | _ => some (decRat neg ip f false [], cs)
  parseNumExp (neg : Bool) (ip f : List Char) (cs : List Char) :
      Option (ℚ × List Char) :=
    let (eneg, cs1) :=
      match cs with
      | '-' :: rest => (true, rest)
      | '+' :: rest => (false, rest)
      | _ => (false, cs)
    let ed := cs1.takeWhile isDigitChar
    if ed.isEmpty then none
    else some (decRat neg ip f eneg ed, cs1.dropWhile isDigitChar)

/-- Mode of the single-pass JSON scanner: a plain value, the members of an
object being accumulated, or the elements of an array. -/
inductive PMode where
  | val : PMode
  | members : List (String × Json) → PMode
  | elems : List Json → PMode

/-- Fuel-bounded recursive-descent scanner for JSON, mirroring the grammar
accepted by `encoding/json`. -/
def parseF : Nat → PMode → List Char → Option (Json × List Char)
  | 0, _, _ => none
  | Nat.succ fuel, PMode.val, cs =>
    match cs with
    | [] => none
    | '{' :: rest =>
      let r := skipWs rest
      match r with
      | '}' :: r2 => some (Json.obj [], r2)
      | _ => parseF fuel (PMode.members []) r
    | '[' :: rest =>
      let r := skipWs rest
      match r with
      | ']' :: r2 => some (Json.arr [], r2)
      | _ => parseF fuel (PMode.elems []) r
    | '"' :: rest =>
      match strBody rest with
      | some (s, r) => some (Json.str (String.mk s), r)
      | none => none
    | 't' :: 'r' :: 'u' :: 'e' :: r => some (Json.bool true, r)
    | 'f' :: 'a' :: 'l' :: 's' :: 'e' :: r => some (Json.bool false, r)
    | 'n' :: 'u' :: 'l' :: 'l' :: r => some (Json.null, r)
    | _ =>
      match parseNum cs with
      | some (q, r) => some (Json.num q, r)
      | none => none
  | Nat.succ fuel, PMode.members acc, cs =>
    match skipWs cs with
    | '"' :: rest =>
      match strBody rest with
      | none => none
      | some (k, r1) =>
        match skipWs r1 with
        | ':' :: r2 =>
          match parseF fuel PMode.val (skipWs r2) with
          | none => none
          | some (v, r3) =>
            match skipWs r3 with
            | ',' :: r4 => parseF fuel (PMode.members (acc ++ [(String.mk k, v)])) r4
            | '}' :: r4 => some (Json.obj (acc ++ [(String.mk k, v)]), r4)
            | _ => none
        | _ => none
    | _ => none
  | Nat.succ fuel, PMode.elems acc, cs =>
    match parseF fuel PMode.val (skipWs cs) with
    | none => none
    | some (v, r) =>
      match skipWs r with
      | ',' :: r2 => parseF fuel (PMode.elems (acc ++ [v])) r2
      | ']' :: r2 => some (Json.arr (acc ++ [v]), r2)
      | _ => none

/-- `JSON.parse` / `json.Unmarshal` syntax over a character list: one value,
possibly surrounded by whitespace, nothing else. -/
def parseJsonChars (cs : List Char) : Option Json :=
  match parseF (2 * cs.length + 4) PMode.val (skipWs cs) with
  | some (v, rest) => if (skipWs rest).isEmpty then some v else none
  | none => none

/-- `json.Unmarshal` applied to a byte slice; bytes are transliterated
one-for-one to characters (all inputs of interest are ASCII). -/
def parseJsonBytes (bs : List Nat) : Option Json :=
  parseJsonChars (bs.map Char.ofNat)

/-- Value of one character of the URL-safe base64 alphabet used by
`base64.RawURLEncoding`. -/
def b64Val (c : Char) : Option Nat :=
  if 'A' ≤ c && c ≤ 'Z' then some (c.toNat - 65)
  else if 'a' ≤ c && c ≤ 'z' then some (c.toNat - 97 + 26)
  else if '0' ≤ c && c ≤ '9' then some (c.toNat - 48 + 52)
  else if c = '-' then some 62
  else if c = '_' then some 63
  else none

def b64Vals : List Char → Option (List Nat)
  | [] => some []
  | c :: rest =>
    match b64Val c, b64Vals rest with
    | some v, some vs => some (v :: vs)
    | _, _ => none

/-- Regroup 6-bit values into bytes the way `base64.RawURLEncoding` does: a
trailing group of one value is an error, trailing groups of two or three
values produce one or two bytes (spare low bits are ignored, the default
non-strict behavior). -/
def b64Bytes : List Nat → Option (List Nat)
  | [] => some []
  | [_] => none
  | [a, b] => some [(a * 4 + b / 16) % 256]
  | [a, b, c] => some [(a * 4 + b / 16) % 256, ((b % 16) * 16 + c / 4) % 256]
  | a :: b :: c :: d :: rest =>
    match b64Bytes rest with
    | some tail =>
      some ((a * 4 + b / 16) % 256 :: ((b % 16) * 16 + c / 4) % 256 ::
        ((c % 4) * 64 + d) % 256 :: tail)
    | none => none

/-- `base64.RawURLEncoding.DecodeString`: newlines are skipped, any other
character outside the URL-safe alphabet is an error. -/
def base64UrlDecode (cs : List Char) : Option (List Nat) :=
  match b64Vals (cs.filter (fun c => c ≠ '\r' && c ≠ '\n')) with
  | some vs => b64Bytes vs
  | none => none

/-- The decimal syntax accepted by Go `strconv.ParseFloat`: optional sign,
digits with an optional fractional part (at least one digit overall), and
an optional exponent; the whole input must be consumed.  (The `inf`/`nan`
words and hexadecimal floats are not modeled; no statement below depends
on them.) -/
def parseGoFloat (cs : List Char) : Option ℚ :=
  let (neg, cs1) :=
    match cs with
    | '-' :: rest => (true, rest)
    | '+' :: rest => (false, rest)
    | _ => (false, cs)
  let ip := cs1.takeWhile isDigitChar
  let cs2 := cs1.dropWhile isDigitChar
  let (fr, cs3) :=
    match cs2 with
    | '.' :: rest => (rest.takeWhile isDigitChar, rest.dropWhile isDigitChar)
    | _ => ([], cs2)
  if ip.isEmpty && fr.isEmpty then none
  else
    match cs3 with
    | [] => some (decRat neg ip fr false [])
    | 'e' :: rest => parseGoFloatExp neg ip fr rest
    | 'E' :: rest => parseGoFloatExp neg ip fr rest
    | _ => none
where
  parseGoFloatExp (neg : Bool) (ip fr : List Char) (cs : List Char) : Option ℚ :=
    let (eneg, cs1) :=
      match cs with
      | '-' :: rest => (true, rest)
      | '+' :: rest => (false, rest)
      | _ => (false, cs)
    let ed := cs1.takeWhile isDigitChar
    if ed.isEmpty || !(cs1.dropWhile isDigitChar).isEmpty then none
    else some (decRat neg ip fr eneg ed)

/-- Go's `int64(f)` conversion of a finite float: truncation toward zero,
computed on the reduced numerator and denominator. -/
def ratTrunc (q : ℚ) : Int :=
  q.num.tdiv (q.den : Int)

/-- Go helper `toFloat` (CLI command file), restricted to the values
`encoding/json` can produce: numbers pass through; for any other value the
code stringifies (`toString` yields the string itself for strings and `""`
for booleans, nulls, arrays and maps) and then runs `strconv.ParseFloat`,
falling back to 0 on failure. -/
def toFloat : Json → ℚ
  | Json.num q => q
  | Json.str s =>
    match parseGoFloat s.data with
    | some q => q
    | none => 0
  | _ => 0

/-- `jwtClaims` from the CLI command file. -/
structure jwtClaims where
  Sub : String := ""
  Email : String := ""
  Exp : Int := 0
deriving DecidableEq

/-- `raw["sub"].(string)`: the `sub` claim if it is a JSON string, `""`
otherwise (absent or of another type). -/
def subField (fs : List (String × Json)) : String :=
  match lastLookup fs "sub" with
  | some (Json.str s) => s
  | _ => ""

/-- `raw["email"].(string)`: the `email` claim if it is a JSON string,
`""` otherwise. -/
def emailField (fs : List (String × Json)) : String :=
  match lastLookup fs "email" with
  | some (Json.str s) => s
  | _ => ""

/-- `if expVal, ok := raw["exp"]; ok \x7b claims.Exp = int64(toFloat(expVal)) \x7d`:
any present `exp` value is coerced through `toFloat`, an absent one leaves
the zero value. -/
def expField (fs : List (String × Json)) : Int :=
  match lastLookup fs "exp" with
  | some v => ratTrunc (toFloat v)
  | none => 0

/-- The part of `decodeJWT` after `strings.Split(token, ".")`: require
exactly 3 parts, base64url-decode the middle part, unmarshal it as a JSON
object and read the `sub`, `email` and `exp` claims.  (A JSON `null`
payload unmarshals into a `nil` map without error, leaving all claims
zero.) -/
def decodeJWTParts : List (List Char) → Except String jwtClaims
  | [_, p1, _] =>
    match base64UrlDecode p1 with
    | none => Except.error "illegal base64 data"
    | some payload =>
      match parseJsonBytes payload with
      | some (Json.obj raw) =>
        Except.ok { Sub := subField raw, Email := emailField raw, Exp := expField raw }
      | some Json.null => Except.ok {}
      | some _ => Except.error "json: cannot unmarshal value into map"
      | none => Except.error "invalid json payload"
  | _ => Except.error "invalid token format"

/-- `decodeJWT` from the CLI command file. -/
def decodeJWT (token : String) : Except String jwtClaims :=
  decodeJWTParts (splitOnChar '.' token.data)

/-- The token-expiry test inlined in `loginCommand`
(`decoded.Exp > 0 && time.Unix(decoded.Exp, 0).Before(time.Now())`) and in
`statusCommand`; time is modeled in whole unix seconds. -/
def isExpired (c : jwtClaims) (now : Int) : Bool :=
  decide (0 < c.Exp) && decide (c.Exp < now)

/-- `parts := strings.Split(sub, ":"); parts[len(parts)-1]`. -/
def lastColonSegment (s : String) : String :=
  String.mk (((splitOnChar ':' s.data).getLast?).getD [])

/-! ## The browser-auth pipeline -/

/-- `BrowserAuthResult` from the browser-auth file. -/
structure BrowserAuthResult where
  AccessToken : String := ""
  UserUUID : String := ""
  PublicUserUUID : String := ""
  UserName : String := ""
  Email : String := ""
deriving DecidableEq

/-- `authResponsePayload` from the browser-auth file. -/
structure authResponsePayload where
  Name : String := ""
  UUID : String := ""
  PublicUUID : String := ""
  AccessToken : String := ""
  RefreshToken : String := ""
deriving DecidableEq

/-- One observed HTTP response: its status, URL, and the result of
`resp.JSON(&payload)` (`none` when the body does not unmarshal). -/
structure Response where
  status : Int
  url : String
  payload : Option authResponsePayload

/-- The filter applied by the `page.OnResponse` handler: status 200, URL
containing `/bringauth`, body unmarshals, non-empty `access_token`. -/
def validResponse (r : Response) : Option authResponsePayload :=
  if r.status ≠ 200 then none
  else if !containsSubstring r.url.data "/bringauth".data then none
  else
    match r.payload with
    | none => none
    | some p => if p.AccessToken = "" then none else some p

/-- One offer into the capacity-1 channel with `select \x7b case ch <- payload:
default: \x7d`: when the slot is occupied the payload is dropped, never
replacing the stored one. -/
def offerStep (slot : Option authResponsePayload) (r : Response) :
    Option authResponsePayload :=
  match validResponse r with
  | none => slot
  | some p =>
    match slot with
    | none => some p
    | some q => some q

/-- The slot contents after the handler has processed a sequence of
responses (offers are modeled in arrival order at the channel). -/
def runInterceptor (rs : List Response) : Option authResponsePayload :=
  rs.foldl offerStep none

/-- `finalizeAuthResult`: reject an empty access token; keep a non-empty
userId; otherwise backfill the userId from the token's `sub` claim (which
must be non-empty), taking its last colon-delimited segment. -/
def finalizeAuthResult (r : BrowserAuthResult) : Except String BrowserAuthResult :=
  if r.AccessToken = "" then Except.error "failed to extract authentication data"
  else if r.UserUUID ≠ "" then Except.ok r
  else
    match decodeJWT r.AccessToken with
    | Except.error _ => Except.error "failed to extract authentication data"
    | Except.ok claims =>
      if claims.Sub = "" then Except.error "failed to extract authentication data"
      else Except.ok { r with UserUUID := lastColonSegment claims.Sub }

/-- The two browser storage scopes, each an insertion-ordered list of
key-value pairs (the order `storage.key(i)` enumerates). -/
structure Storage where
  localS : List (String × String) := []
  sessionS : List (String × String) := []

/-- `storage.getItem(k)` (keys are unique; the first binding wins). -/
def firstLookup : List (String × String) → String → Option String
  | [], _ => none
  | (k, v) :: rest, q => if k = q then some v else firstLookup rest q

/-- `localStorage.getItem(k) || sessionStorage.getItem(k)` followed by the
`JSON.stringify`/`json.Unmarshal` round trip that turns `null` into `""`:
an empty or missing persistent value falls through to the session scope. -/
def canonicalGet (st : Storage) (k : String) : String :=
  let l := (firstLookup st.localS k).getD ""
  if l ≠ "" then l else (firstLookup st.sessionS k).getD ""

/-- Phase 1 of `extractAuthFromStorage`: the five canonical keys read from
both scopes. -/
def canonicalRead (st : Storage) : BrowserAuthResult :=
  { AccessToken := canonicalGet st "accessToken"
    UserUUID := canonicalGet st "userUuid"
    PublicUserUUID := canonicalGet st "publicUserUuid"
    UserName := canonicalGet st "userName"
    Email := canonicalGet st "email" }

def isB64UrlChar (c : Char) : Bool :=
  ('A' ≤ c && c ≤ 'Z') || ('a' ≤ c && c ≤ 'z') || ('0' ≤ c && c ≤ '9') ||
    c = '-' || c = '_'

def notLineTerm (c : Char) : Bool :=
  !(c = '\n' || c = '\r' || c.toNat = 0x2028 || c.toNat = 0x2029)

/-- Attempt to match, at the head of the input, the scan's JWT pattern.
The pattern is delivered to JavaScript as
`eyJ[A-Za-z0-9_-]+\\.[A-Za-z0-9_-]+\\.[A-Za-z0-9_-]+` — the doubled
backslash (a Go raw string fed to a JS regex literal) makes `\\.` match a
literal backslash followed by any non-line-terminator character, so the
pattern requires backslashes and can never match an actual JWT. -/
def jwtMatchAt (cs : List Char) : Option (List Char) :=
  match cs with
  | 'e' :: 'y' :: 'J' :: rest =>
    let r1 := rest.takeWhile isB64UrlChar
    if r1.isEmpty then none
    else
      match rest.dropWhile isB64UrlChar with
      | '\\' :: d1 :: rest2 =>
        if notLineTerm d1 then
          let r2 := rest2.takeWhile isB64UrlChar
          if r2.isEmpty then none
          else
            match rest2.dropWhile isB64UrlChar with
            | '\\' :: d2 :: rest4 =>
              if notLineTerm d2 then
                let r3 := rest4.takeWhile isB64UrlChar
                if r3.isEmpty then none
                else
                  some ('e' :: 'y' :: 'J' :: r1 ++ '\\' :: d1 :: r2 ++ '\\' :: d2 :: r3)
              else none
            | _ => none
        else none
      | _ => none
  | _ => none

/-- `value.match(jwtRegex)`: the leftmost match, if any. -/
def jwtScan : List Char → Option (List Char)
  | [] => none
  | c :: rest =>
    match jwtMatchAt (c :: rest) with
    | some m => some m
    | none => jwtScan rest

/-- The accumulator object `result` of the heuristic scan; unset fields are
JavaScript `undefined`, modeled as `Json.null` (both falsy). -/
structure ScanAcc where
  accessToken : Json := Json.null
  userUuid : Json := Json.null
  publicUserUuid : Json := Json.null
  userName : Json := Json.null
  email : Json := Json.null

/-- JavaScript truthiness of a JSON value. -/
def jsTruthy : Json → Bool
  | Json.null => false
  | Json.bool b => b
  | Json.num q => decide (q ≠ 0)
  | Json.str s => decide (s ≠ "")
  | Json.arr _ => true
  | Json.obj _ => true

/-- JavaScript `a || b`. -/
def jsOr (a b : Json) : Json :=
  if jsTruthy a then a else b

/-- JavaScript `a && b`. -/
def jsAnd (a b : Json) : Json :=
  if jsTruthy a then b else a

/-- JavaScript property access `obj.k` on a parsed JSON value: `undefined`
(modeled `null`) unless the value is an object with the key. -/
def jsGet (j : Json) (k : String) : Json :=
  match j with
  | Json.obj fs => (lastLookup fs k).getD Json.null
  | _ => Json.null

/-- `typeof obj === 'object'` and truthy: objects and arrays pass. -/
def jsIsObject : Json → Bool
  | Json.obj _ => true
  | Json.arr _ => true
  | _ => false

/-- The scan's `trySet(obj)`: probe the alias lists, adopt each first truthy
candidate into any still-unset field, and report whether an accessToken or
userUuid has been collected so far. -/
def trySet (acc : ScanAcc) (j : Json) : ScanAcc × Bool :=
  if !jsIsObject j then (acc, false)
  else
    let tokC := jsOr (jsOr (jsOr (jsGet j "access_token") (jsGet j "accessToken"))
      (jsGet j "token"))
      (jsAnd (jsGet j "auth")
        (jsOr (jsGet (jsGet j "auth") "access_token") (jsGet (jsGet j "auth") "accessToken")))
    let uuidC := jsOr (jsOr (jsOr (jsGet j "userUuid") (jsGet j "user_uuid"))
      (jsGet j "uuid"))
      (jsAnd (jsGet j "user")
        (jsOr (jsGet (jsGet j "user") "uuid") (jsGet (jsGet j "user") "userUuid")))
    let pubC := jsOr (jsOr (jsGet j "publicUuid") (jsGet j "public_user_uuid"))
      (jsGet j "publicUserUuid")
    let nameC := jsOr (jsOr (jsGet j "name") (jsGet j "userName"))
      (jsAnd (jsGet j "user")
        (jsOr (jsGet (jsGet j "user") "name") (jsGet (jsGet j "user") "userName")))
    let emailC := jsOr (jsGet j "email") (jsAnd (jsGet j "user") (jsGet (jsGet j "user") "email"))
    let acc := if jsTruthy tokC && !jsTruthy acc.accessToken then
      { acc with accessToken := tokC } else acc
    let acc := if jsTruthy uuidC && !jsTruthy acc.userUuid then
      { acc with userUuid := uuidC } else acc
    let acc := if jsTruthy pubC && !jsTruthy acc.publicUserUuid then
      { acc with publicUserUuid := pubC } else acc
    let acc := if jsTruthy nameC && !jsTruthy acc.userName then
      { acc with userName := nameC } else acc
    let acc := if jsTruthy emailC && !jsTruthy acc.email then
      { acc with email := emailC } else acc
    (acc, jsTruthy acc.accessToken || jsTruthy acc.userUuid)

/-- The scan loop over the concatenated entries of both scopes: skip falsy
values, try the JWT pattern while no accessToken is set, JSON-parse and
`trySet`, and return early once both accessToken and userUuid are set. -/
def scanEntries (acc : ScanAcc) : List (String × String) → ScanAcc
  | [] => acc
  | (_, v) :: rest =>
    if v = "" then scanEntries acc rest
    else
      let acc1 :=
        if !jsTruthy acc.accessToken then
          match jwtScan v.data with
          | some m => { acc with accessToken := Json.str (String.mk m) }
          | none => acc
        else acc
      match parseJsonChars v.data with
      | none => scanEntries acc1 rest
      | some j =>
        let p := trySet acc1 j
        if p.2 && jsTruthy p.1.accessToken && jsTruthy p.1.userUuid then p.1
        else scanEntries p.1 rest

/-- `JSON.stringify(result)` then `json.Unmarshal` into `map[string]string`:
succeeds only when every collected field is a string (an unset field is
simply absent and reads back as `""`). -/
def fieldStr : Json → Option String
  | Json.null => some ""
  | Json.str s => some s
  | _ => none

/-- `extractAuthFromStorageFallback` (success case is a partial result;
a collected non-string value makes the Go-side unmarshal fail). -/
def extractAuthFromStorageFallback (st : Storage) : Except String BrowserAuthResult :=
  let acc := scanEntries {} (st.localS ++ st.sessionS)
  match fieldStr acc.accessToken, fieldStr acc.userUuid, fieldStr acc.publicUserUuid,
      fieldStr acc.userName, fieldStr acc.email with
  | some a, some b, some c, some d, some e =>
    Except.ok { AccessToken := a, UserUUID := b, PublicUserUUID := c, UserName := d, Email := e }
  | _, _, _, _, _ => Except.error "json: cannot unmarshal value into string"

/-- The per-field fill of `extractAuthFromStorage`: every still-empty field
of the canonical result is taken from the fallback result. -/
def fillEmpty (r fb : BrowserAuthResult) : BrowserAuthResult :=
  { AccessToken := if r.AccessToken = "" then fb.AccessToken else r.AccessToken
    UserUUID := if r.UserUUID = "" then fb.UserUUID else r.UserUUID
    PublicUserUUID := if r.PublicUserUUID = "" then fb.PublicUserUUID else r.PublicUserUUID
    UserName := if r.UserName = "" then fb.UserName else r.UserName
    Email := if r.Email = "" then fb.Email else r.Email }

/-- The partial credential `extractAuthFromStorage` assembles before
validation: the canonical read, merged with the fallback scan when the
accessToken or userUuid is still missing (a failed or empty fallback is
ignored). -/
def mergedStorageResult (st : Storage) : BrowserAuthResult :=
  let result := canonicalRead st
  if result.AccessToken = "" || result.UserUUID = "" then
    match extractAuthFromStorageFallback st with
    | Except.ok fb =>
      if fb.AccessToken ≠ "" || fb.UserUUID ≠ "" then fillEmpty result fb else result
    | Except.error _ => result
  else result

/-- `extractAuthFromStorage`: scrape, then validate/backfill. -/
def extractAuthFromStorage (st : Storage) : Except String BrowserAuthResult :=
  finalizeAuthResult (mergedStorageResult st)

/-- The tail of `BrowserLoginWithIntercept` after `waitForLogin` returned:
when `waitForAuthResponse` delivered a payload within its window the
payload's fields are finalized directly (the `Email` field is never set on
this path); otherwise the storage extractor runs. -/
def browserLoginAfterWait (delivered : Option authResponsePayload) (st : Storage) :
    Except String BrowserAuthResult :=
  match delivered with
  | some payload =>
    finalizeAuthResult
      { AccessToken := payload.AccessToken
        UserUUID := payload.UUID
        PublicUserUUID := payload.PublicUUID
        UserName := payload.Name }
  | none => extractAuthFromStorage st

/-- `waitForAuthResponse`'s window: `10*time.Second`. -/
def interceptWaitSeconds : Nat := 10

/-- `waitForAuthStorage`'s window: `90*time.Second`. -/
def storageWaitSeconds : Nat := 90

/-! ## Login detection -/

def bringDomain : List Char := "web.getbring.com".data

def loginPath : List Char := "/login".data

/-- `isBringURL`. -/
def isBringURL (url : List Char) : Bool :=
  containsSubstring url bringDomain

/-- `loginDetected`: some currently open page is on the Bring domain and
off the login path. -/
def loginDetected (urls : List (List Char)) : Bool :=
  urls.any (fun u => isBringURL u && !containsSubstring u loginPath)

/-- The polling loop of `waitForLogin`: at each 1-second tick check the
detector, then the deadline (`time.Now().After(deadline)`), then sleep.
Returns the tick at which login was detected, or `none` on timeout. -/
def waitForLoginFrom (det : Nat → Bool) (deadline : Nat) (t : Nat) : Option Nat :=
  if det t then some t
  else if deadline < t then none
  else waitForLoginFrom det deadline (t + 1)
termination_by deadline + 1 - t
decreasing_by
  omega

/-- `5*time.Minute` of 1-second polls. -/
def loginDeadlineTicks : Nat := 300

/-- `waitForLogin(page, 5*time.Minute)` over the evolving set of open-page
URLs. -/
def waitForLogin (pages : Nat → List (List Char)) : Option Nat :=
  waitForLoginFrom (fun t => loginDetected (pages t)) loginDeadlineTicks 0

/-- `findBringAppPage`: the first open page on the Bring domain and off the
login path, falling back to the page the login was driven on. -/
def findBringAppPage (urls : List (List Char)) (primary : List Char) : List Char :=
  (urls.find? (fun u => isBringURL u && !containsSubstring u loginPath)).getD primary

/-! ## Concrete inputs used in witnesses and counterexamples

Unsigned JWTs of the form `base64url(header).base64url(payload).` with
header `\x7b"alg":"none"\x7d` (the empty third segment is also what the repo's
own tests use). -/

/-- Payload `\x7b"sub":"X:Y:Z:uuid-123"\x7d`. -/
def tokXYZ : String := "eyJhbGciOiJub25lIn0.eyJzdWIiOiJYOlk6Wjp1dWlkLTEyMyJ9."

/-- Payload `\x7b"sub":"solo"\x7d` (a subject with no colons). -/
def tokSolo : String := "eyJhbGciOiJub25lIn0.eyJzdWIiOiJzb2xvIn0."

/-- Payload `\x7b"sub":"BRN:"\x7d` (a subject whose last colon segment is empty). -/
def tokColon : String := "eyJhbGciOiJub25lIn0.eyJzdWIiOiJCUk46In0."

/-- Payload `\x7b"sub":"A:B:C:id-123","exp":1700000000\x7d`. -/
def tokC7 : String := "eyJhbGciOiJub25lIn0.eyJzdWIiOiJBOkI6QzppZC0xMjMiLCJleHAiOjE3MDAwMDAwMDB9."

/-- Payload `\x7b"exp":"7"\x7d` (an `exp` claim of JSON type string). -/
def tokExpStr : String := "eyJhbGciOiJub25lIn0.eyJleHAiOiI3In0."

/-- Payload `\x7b\x7d` (no claims at all). -/
def tokEmptyObj : String := "eyJhbGciOiJub25lIn0.e30."

/-- The storage value of the heuristic-scan scenario:
`\x7b"auth":\x7b"access_token":"abc"\x7d\x7d`. -/
def authAliasJson : String :=
  "\x7b\"auth\":\x7b\"access_token\":\"abc\"\x7d\x7d"

/-! ## Helper lemmas -/

/-- What a successful `finalizeAuthResult` guarantees: all fields except
the userId pass through unchanged, the access token is non-empty, and an
empty emitted userId can only come from backfilling a non-empty subject
whose last colon segment is empty. -/
theorem finalizeAuthResult_ok (r r' : BrowserAuthResult)
    (h : finalizeAuthResult r = Except.ok r') :
    r'.AccessToken = r.AccessToken ∧ r'.PublicUserUUID = r.PublicUserUUID ∧
      r'.UserName = r.UserName ∧ r'.Email = r.Email ∧ r.AccessToken ≠ "" ∧
      (r'.UserUUID = "" →
        r.UserUUID = "" ∧ ∃ c, decodeJWT r.AccessToken = Except.ok c ∧
          c.Sub ≠ "" ∧ lastColonSegment c.Sub = "") := by
  unfold finalizeAuthResult at h
  by_cases h1 : r.AccessToken = ""
  · rw [if_pos h1] at h
    cases h
  · rw [if_neg h1] at h
    by_cases h2 : r.UserUUID ≠ ""
    · rw [if_pos h2] at h
      cases h
      exact ⟨rfl, rfl, rfl, rfl, h1, fun he => absurd he h2⟩
    · rw [if_neg h2] at h
      split at h
      · cases h
      · rename_i c hdec
        by_cases hsub : c.Sub = ""
        · rw [if_pos hsub] at h
          cases h
        · rw [if_neg hsub] at h
          cases h
          refine ⟨rfl, rfl, rfl, rfl, h1, fun he => ?_⟩
          exact ⟨by simpa using h2, c, hdec, hsub, he⟩

/-- `decodeJWT` on a token with three segments whose middle part decodes
to a JSON object. -/
theorem decodeJWT_obj (token : String) (p0 p1 p2 : List Char) (bs : List Nat)
    (fs : List (String × Json))
    (h1 : splitOnChar '.' token.data = [p0, p1, p2])
    (h2 : base64UrlDecode p1 = some bs)
    (h3 : parseJsonBytes bs = some (Json.obj fs)) :
    decodeJWT token =
      Except.ok { Sub := subField fs, Email := emailField fs, Exp := expField fs } := by
  unfold decodeJWT
  rw [h1]
  simp only [decodeJWTParts, h2, h3]

/-- A split that does not have exactly three parts is rejected. -/
theorem decodeJWTParts_not_three (parts : List (List Char)) (h : parts.length ≠ 3) :
    decodeJWTParts parts = Except.error "invalid token format" := by
  match parts with
  | [] => rfl
  | [_] => rfl
  | [_, _] => rfl
  | [_, _, _] => exact absurd rfl h
  | _ :: _ :: _ :: _ :: _ => rfl

/-- An occupied slot is never replaced by later offers. -/
theorem foldl_offerStep_occupied (rs : List Response) (p : authResponsePayload) :
    rs.foldl offerStep (some p) = some p := by
  induction rs with
  | nil => rfl
  | cons r rs ih =>
    have hstep : offerStep (some p) r = some p := by
      unfold offerStep
      cases validResponse r <;> rfl
    rw [List.foldl_cons, hstep]
    exact ih

/-- One unfolding of the polling loop. -/
theorem waitForLoginFrom_unfold (det : Nat → Bool) (d t : Nat) :
    waitForLoginFrom det d t =
      if det t then some t
      else if d < t then none
      else waitForLoginFrom det d (t + 1) := by
  rw [waitForLoginFrom]

/-- If the detector already fires at the current tick, the loop returns it
at once; characterization of `some`. -/
theorem waitFrom_head_true (det : Nat → Bool) (d t0 : Nat) (hdet : det t0 = true)
    (t : Nat) :
    waitForLoginFrom det d t0 = some t ↔
      (t0 ≤ t ∧ det t = true ∧ ∀ s, t0 ≤ s → s < t → (det s = false ∧ s ≤ d)) := by
  rw [waitForLoginFrom_unfold, if_pos hdet]
  constructor
  · intro h
    cases h
    exact ⟨le_refl _, hdet, fun s hs1 hs2 => absurd (lt_of_le_of_lt hs1 hs2) (lt_irrefl _)⟩
  · rintro ⟨h1, _, h3⟩
    rcases eq_or_lt_of_le h1 with rfl | hlt
    · rfl
    · have := (h3 t0 (le_refl _) hlt).1
      rw [hdet] at this
      cases this

/-- Past the deadline with a cold detector, the loop fails and the success
condition is unsatisfiable. -/
theorem waitFrom_dead (det : Nat → Bool) (d t0 : Nat) (hdet : det t0 = false)
    (hd : d < t0) (t : Nat) :
    waitForLoginFrom det d t0 = some t ↔
      (t0 ≤ t ∧ det t = true ∧ ∀ s, t0 ≤ s → s < t → (det s = false ∧ s ≤ d)) := by
  have hdet' : ¬det t0 = true := by
    rw [hdet]
    exact Bool.false_ne_true
  rw [waitForLoginFrom_unfold, if_neg hdet', if_pos hd]
  constructor
  · intro h
    cases h
  · rintro ⟨h1, h2, h3⟩
    rcases eq_or_lt_of_le h1 with rfl | hlt
    · rw [hdet] at h2
      cases h2
    · have := (h3 t0 (le_refl _) hlt).2
      omega

/-- Success characterization of the polling loop: it returns exactly the
first tick at which the detector fires, provided no pre-deadline tick was
missed. -/
theorem waitFrom_some_iff (det : Nat → Bool) (d : Nat) :
    ∀ n t0, d + 1 - t0 ≤ n → ∀ t,
      (waitForLoginFrom det d t0 = some t ↔
        (t0 ≤ t ∧ det t = true ∧ ∀ s, t0 ≤ s → s < t → (det s = false ∧ s ≤ d))) := by
  intro n
  induction n with
  | zero =>
    intro t0 hn t
    by_cases hdet : det t0 = true
    · exact waitFrom_head_true det d t0 hdet t
    · have hdet' : det t0 = false := by
        cases hb : det t0
        · rfl
        · exact absurd hb hdet
      exact waitFrom_dead det d t0 hdet' (by omega) t
  | succ n ih =>
    intro t0 hn t
    by_cases hdet : det t0 = true
    · exact waitFrom_head_true det d t0 hdet t
    · have hdet' : det t0 = false := by
        cases hb : det t0
        · rfl
        · exact absurd hb hdet
      by_cases hd : d < t0
      · exact waitFrom_dead det d t0 hdet' hd t
      · have hstep : waitForLoginFrom det d t0 = waitForLoginFrom det d (t0 + 1) := by
          rw [waitForLoginFrom_unfold, if_neg hdet, if_neg hd]
        rw [hstep, ih (t0 + 1) (by omega) t]
        constructor
        · rintro ⟨h1, h2, h3⟩
          refine ⟨by omega, h2, fun s hs1 hs2 => ?_⟩
          rcases eq_or_lt_of_le hs1 with rfl | hlt
          · exact ⟨hdet', by omega⟩
          · exact h3 s (by omega) hs2
        · rintro ⟨h1, h2, h3⟩
          have ht0 : t ≠ t0 := by
            intro hEq
            rw [hEq, hdet'] at h2
            cases h2
          refine ⟨by omega, h2, fun s hs1 hs2 => h3 s (by omega) hs2⟩

/-- Timeout characterization of the polling loop: starting no later than
one past the deadline, it returns `none` exactly when the detector stays
cold through tick `deadline + 1`. -/
theorem waitFrom_none_iff (det : Nat → Bool) (d : Nat) :
    ∀ n t0, d + 1 - t0 ≤ n → t0 ≤ d + 1 →
      (waitForLoginFrom det d t0 = none ↔
        ∀ s, t0 ≤ s → s ≤ d + 1 → det s = false) := by
  intro n
  induction n with
  | zero =>
    intro t0 hn ht0
    have ht0' : t0 = d + 1 := by omega
    subst ht0'
    rw [waitForLoginFrom_unfold]
    by_cases hdet : det (d + 1) = true
    · rw [if_pos hdet]
      constructor
      · intro h
        cases h
      · intro hall
        rw [hall (d + 1) (le_refl _) (le_refl _)] at hdet
        cases hdet
    · have hdet' : det (d + 1) = false := by
        cases hb : det (d + 1)
        · rfl
        · exact absurd hb hdet
      rw [if_neg hdet, if_pos (Nat.lt_succ_self d)]
      constructor
      · intro _ s hs1 hs2
        have : s = d + 1 := by omega
        rw [this]
        exact hdet'
      · intro _
        rfl
  | succ n ih =>
    intro t0 hn ht0
    rw [waitForLoginFrom_unfold]
    by_cases hdet : det t0 = true
    · rw [if_pos hdet]
      constructor
      · intro h
        cases h
      · intro hall
        rw [hall t0 (le_refl _) ht0] at hdet
        cases hdet
    · have hdet' : det t0 = false := by
        cases hb : det t0
        · rfl
        · exact absurd hb hdet
      rw [if_neg hdet]
      by_cases hd : d < t0
      · rw [if_pos hd]
        constructor
        · intro _ s hs1 hs2
          have : s = t0 := by omega
          rw [this]
          exact hdet'
        · intro _
          rfl
      · rw [if_neg hd]
        rw [ih (t0 + 1) (by omega) (by omega)]
        constructor
        · intro hall s hs1 hs2
          rcases eq_or_lt_of_le hs1 with rfl | hlt
          · exact hdet'
          · exact hall s (by omega) hs2
        · intro hall s hs1 hs2
          exact hall s (by omega) hs2

/-! ## Claim theorems -/

/-- C1 (counterexample): a `/bringauth` response whose JSON body has a
non-empty `access_token` but an empty `uuid` is accepted by the
interceptor; when its token's subject claim ends in a colon the login
emits a credential whose `userId` is empty — a partial credential reaches
the caller, contradicting the claimed invariant. -/
theorem C1_no_partial_credential_cex :
    runInterceptor
        [{ status := 200
           url := "https://api.getbring.com/rest/v2/bringauth"
           payload := some { AccessToken := tokColon } }] =
      some { AccessToken := tokColon } ∧
    decodeJWT tokColon = Except.ok { Sub := "BRN:" } ∧
    browserLoginAfterWait (some { AccessToken := tokColon }) {} =
      Except.ok { AccessToken := tokColon, UserUUID := "" } ∧
    tokColon ≠ "" := by
  exact ⟨rfl, rfl, rfl, by decide⟩

/-- C1 (amended): every credential emitted by a successful login attempt
(either branch goes through `finalizeAuthResult`) has a non-empty
accessToken, and its userId is non-empty except when it was backfilled
from a non-empty subject claim whose last colon-delimited segment is
empty. -/
theorem C1_emitted_fields : ∀ r r', finalizeAuthResult r = Except.ok r' →
    r'.AccessToken ≠ "" ∧
    (r'.UserUUID = "" → ∃ c, decodeJWT r.AccessToken = Except.ok c ∧
      c.Sub ≠ "" ∧ lastColonSegment c.Sub = "") := by
  intro r r' h
  obtain ⟨hat, _, _, _, hne, huid⟩ := finalizeAuthResult_ok r r' h
  refine ⟨?_, fun he => (huid he).2⟩
  rw [hat]
  exact hne

/-- Witness for C1: the emitted access token of a concrete finalized
credential is non-empty. -/
theorem C1_emitted_fields_witness :
    ({ AccessToken := "tok", UserUUID := "u" } : BrowserAuthResult).AccessToken ≠ "" :=
  (C1_emitted_fields { AccessToken := "tok", UserUUID := "u" }
    { AccessToken := "tok", UserUUID := "u" } rfl).1

/-- C2 (counterexample): the backfill imposes no `seg:seg:seg:id` shape on
the subject claim — a token whose subject is the colon-free `"solo"` is
accepted and `"solo"` becomes the userId, where the claim demands the
failure `MissingUserId` for a malformed subject. -/
theorem C2_subject_shape_cex :
    decodeJWT tokSolo = Except.ok { Sub := "solo" } ∧
    finalizeAuthResult { AccessToken := tokSolo } =
      Except.ok { AccessToken := tokSolo, UserUUID := "solo" } :=
  ⟨rfl, rfl⟩

/-- C2 (amended): when the merged sources yield an accessToken but no
userId, the token is decoded and any non-empty subject is accepted, its
last colon-delimited segment becoming the userId (no shape requirement);
decode failure or an empty/absent subject fails the attempt; and the
end-to-end storage-only scenario with subject `X:Y:Z:uuid-123` yields
userId `uuid-123`. -/
theorem C2_userid_backfill :
    extractAuthFromStorage { localS := [("accessToken", tokXYZ)] } =
      Except.ok { AccessToken := tokXYZ, UserUUID := "uuid-123" } ∧
    (∀ r c, r.AccessToken ≠ "" → r.UserUUID = "" →
      decodeJWT r.AccessToken = Except.ok c → c.Sub ≠ "" →
      finalizeAuthResult r = Except.ok { r with UserUUID := lastColonSegment c.Sub }) ∧
    (∀ r, r.AccessToken ≠ "" → r.UserUUID = "" →
      (∀ c, decodeJWT r.AccessToken = Except.ok c → c.Sub = "") →
      finalizeAuthResult r = Except.error "failed to extract authentication data") := by
  refine ⟨rfl, ?_, ?_⟩
  · intro r c h1 h2 h3 h4
    unfold finalizeAuthResult
    rw [if_neg h1, if_neg (by simp [h2])]
    simp only [h3]
    rw [if_neg h4]
  · intro r h1 h2 hall
    unfold finalizeAuthResult
    rw [if_neg h1, if_neg (by simp [h2])]
    cases hdec : decodeJWT r.AccessToken with
    | error e => simp only [hdec]
    | ok c =>
      simp only [hdec]
      rw [if_pos (hall c hdec)]

/-- Witness for C2: the backfill applied to the concrete storage-only
token. -/
theorem C2_userid_backfill_witness :
    finalizeAuthResult { AccessToken := tokXYZ } =
      Except.ok { AccessToken := tokXYZ, UserUUID := lastColonSegment "X:Y:Z:uuid-123" } :=
  C2_userid_backfill.2.1 { AccessToken := tokXYZ } { Sub := "X:Y:Z:uuid-123" }
    (by decide) rfl rfl (by decide)

/-- C3 (confirmed): the storage extraction reads the five canonical keys,
each from the persistent scope first and the session scope as fallback,
its scraping stage is a total function into a partial credential, and the
only failure the composed operation can produce is the downstream
validation failure (never a read failure). -/
theorem C3_storage_extraction : ∀ st : Storage,
    (canonicalRead st =
      { AccessToken := canonicalGet st "accessToken"
        UserUUID := canonicalGet st "userUuid"
        PublicUserUUID := canonicalGet st "publicUserUuid"
        UserName := canonicalGet st "userName"
        Email := canonicalGet st "email" }) ∧
    (∀ k, canonicalGet st k =
      (if (firstLookup st.localS k).getD "" ≠ "" then (firstLookup st.localS k).getD ""
       else (firstLookup st.sessionS k).getD "")) ∧
    (∀ e, extractAuthFromStorage st = Except.error e →
      e = "failed to extract authentication data") := by
  intro st
  refine ⟨rfl, fun _ => rfl, ?_⟩
  intro e h
  unfold extractAuthFromStorage finalizeAuthResult at h
  by_cases h1 : (mergedStorageResult st).AccessToken = ""
  · rw [if_pos h1] at h
    cases h
    rfl
  · rw [if_neg h1] at h
    by_cases h2 : (mergedStorageResult st).UserUUID ≠ ""
    · rw [if_pos h2] at h
      cases h
    · rw [if_neg h2] at h
      split at h
      · cases h
        rfl
      · rename_i c _
        by_cases hsub : c.Sub = ""
        · rw [if_pos hsub] at h
          cases h
          rfl
        · rw [if_neg hsub] at h
          cases h

/-- Witness for C3: an empty persistent value falls through to the session
scope, and the empty storage fails with the validation error only. -/
theorem C3_storage_extraction_witness :
    canonicalGet { localS := [("userUuid", "")], sessionS := [("userUuid", "u1")] }
      "userUuid" = "u1" ∧
    "failed to extract authentication data" = "failed to extract authentication data" := by
  constructor
  · rw [(C3_storage_extraction
      { localS := [("userUuid", "")], sessionS := [("userUuid", "u1")] }).2.1 "userUuid"]
    rfl
  · exact (C3_storage_extraction {}).2.2 _ rfl

/-- C4 (confirmed): with no canonical `accessToken` key present, a single
storage entry holding `\x7b"auth":\x7b"access_token":"abc"\x7d\x7d` under any key makes
the heuristic scan adopt `"abc"` as the accessToken of the scraped partial
credential. -/
theorem C4_heuristic_alias_scan : ∀ k : String, k ≠ "accessToken" →
    (mergedStorageResult { localS := [(k, authAliasJson)], sessionS := [] }).AccessToken =
      "abc" := by
  intro k hk
  have hfb : extractAuthFromStorageFallback { localS := [(k, authAliasJson)], sessionS := [] } =
      Except.ok { AccessToken := "abc" } := rfl
  have hcan : canonicalGet { localS := [(k, authAliasJson)], sessionS := [] } "accessToken" =
      "" := by
    simp [canonicalGet, firstLookup, hk]
  unfold mergedStorageResult
  simp only [canonicalRead, hcan, hfb]
  simp [fillEmpty, hcan]

/-- Witness for C4: the scenario at the concrete key `"session"`. -/
theorem C4_heuristic_alias_scan_witness :
    (mergedStorageResult { localS := [("session", authAliasJson)], sessionS := [] }).AccessToken =
      "abc" :=
  C4_heuristic_alias_scan "session" (by decide)

/-- C5 (confirmed): across any sequence of observed responses, the
single-slot non-blocking handoff stores exactly the first valid matching
payload — later valid arrivals are dropped and never replace it — so at
most one payload is ever delivered. -/
theorem C5_single_slot_first_wins (rs : List Response) :
    runInterceptor rs = (rs.filterMap validResponse).head? := by
  unfold runInterceptor
  induction rs with
  | nil => rfl
  | cons r rs ih =>
    rw [List.foldl_cons, List.filterMap_cons]
    cases hv : validResponse r with
    | none =>
      have : offerStep none r = none := by
        unfold offerStep
        rw [hv]
      rw [this]
      exact ih
    | some p =>
      have : offerStep none r = some p := by
        unfold offerStep
        rw [hv]
      rw [this, foldl_offerStep_occupied]
      rfl

/-- C6 (counterexample): when the interceptor delivered a payload, the
storage extractor is not consulted and no per-field merge happens — with a
payload lacking a user name while the storage holds `userName "Alice"`,
the emitted credential's userName is empty, where the claim's field-wise
merge demands `"Alice"`. -/
theorem C6_per_field_merge_cex :
    browserLoginAfterWait (some { UUID := "u", AccessToken := "tok" })
        { localS := [("userName", "Alice"), ("email", "x@y")] } =
      Except.ok { AccessToken := "tok", UserUUID := "u" } ∧
    (mergedStorageResult { localS := [("userName", "Alice"), ("email", "x@y")] }).UserName =
      "Alice" :=
  ⟨rfl, rfl⟩

/-- C6 (amended): after the up-to-10-second wait, an interceptor payload
short-circuits the flow — its fields are finalized directly, the storage
extractor is not run and the email field stays empty; only without a
payload does the storage extractor run; any emitted credential has a
non-empty accessToken. -/
theorem C6_intercept_short_circuit : ∀ (p : authResponsePayload) (st : Storage),
    (browserLoginAfterWait (some p) st =
      finalizeAuthResult
        { AccessToken := p.AccessToken
          UserUUID := p.UUID
          PublicUserUUID := p.PublicUUID
          UserName := p.Name }) ∧
    (browserLoginAfterWait none st = extractAuthFromStorage st) ∧
    (∀ r, browserLoginAfterWait (some p) st = Except.ok r →
      r.Email = "" ∧ r.AccessToken = p.AccessToken ∧ r.UserName = p.Name ∧
        r.PublicUserUUID = p.PublicUUID) ∧
    (∀ d r, browserLoginAfterWait d st = Except.ok r → r.AccessToken ≠ "") ∧
    interceptWaitSeconds = 10 := by
  intro p st
  refine ⟨rfl, rfl, ?_, ?_, rfl⟩
  · intro r h
    obtain ⟨hat, hpub, hname, hemail, _, _⟩ := finalizeAuthResult_ok _ r h
    exact ⟨hemail, hat, hname, hpub⟩
  · intro d r h
    cases d with
    | some q =>
      obtain ⟨hat, _, _, _, hne, _⟩ := finalizeAuthResult_ok _ r h
      rw [hat]
      exact hne
    | none =>
      obtain ⟨hat, _, _, _, hne, _⟩ := finalizeAuthResult_ok _ r h
      rw [hat]
      exact hne

/-- Witness for C6: a concrete delivered payload yields a credential with
a non-empty access token. -/
theorem C6_intercept_short_circuit_witness :
    ({ AccessToken := "tok2", UserUUID := "u2" } : BrowserAuthResult).AccessToken ≠ "" :=
  (C6_intercept_short_circuit { UUID := "u2", AccessToken := "tok2" } {}).2.2.2.1
    (some { UUID := "u2", AccessToken := "tok2" })
    { AccessToken := "tok2", UserUUID := "u2" } rfl

/-- C7 (confirmed): `decodeJWT` splits on `.`, rejects every input without
exactly three segments with the invalid-token-format failure, otherwise
base64url-decodes the middle segment (failure propagates as an error),
parses it as a JSON object and extracts `sub`, `email` and the numerically
coerced `exp`; the concrete token with claims
`\x7b"sub":"A:B:C:id-123","exp":1700000000\x7d` decodes to that subject. -/
theorem C7_decodeJWT_spec : ∀ token : String,
    ((splitOnChar '.' token.data).length ≠ 3 →
      decodeJWT token = Except.error "invalid token format") ∧
    (∀ p0 p1 p2, splitOnChar '.' token.data = [p0, p1, p2] →
      (base64UrlDecode p1 = none → ∃ e, decodeJWT token = Except.error e) ∧
      (∀ bs fs, base64UrlDecode p1 = some bs → parseJsonBytes bs = some (Json.obj fs) →
        decodeJWT token =
          Except.ok { Sub := subField fs, Email := emailField fs, Exp := expField fs })) ∧
    decodeJWT tokC7 = Except.ok { Sub := "A:B:C:id-123", Email := "", Exp := 1700000000 } := by
  intro token
  refine ⟨?_, ?_, rfl⟩
  · intro h
    unfold decodeJWT
    exact decodeJWTParts_not_three _ h
  · intro p0 p1 p2 hsplit
    constructor
    · intro hb
      refine ⟨"illegal base64 data", ?_⟩
      unfold decodeJWT
      rw [hsplit]
      simp only [decodeJWTParts, hb]
    · intro bs fs hb hj
      exact decodeJWT_obj token p0 p1 p2 bs fs hsplit hb hj

/-- Witness for C7: a dot-free input is rejected as invalid token format. -/
theorem C7_decodeJWT_spec_witness :
    decodeJWT "not-a-jwt" = Except.error "invalid token format" :=
  (C7_decodeJWT_spec "not-a-jwt").1 (by decide)

/-- C8 (counterexample): a present, nonzero `exp` strictly below `now` —
namely `exp = -7200` with `now = 0` — is not reported expired: the code
requires `exp` to be positive, not merely nonzero. -/
theorem C8_nonzero_exp_cex :
    isExpired { Exp := -7200 } 0 = false ∧ ((-7200 : Int) ≠ 0) ∧ ((-7200 : Int) < 0) :=
  ⟨rfl, by decide, by decide⟩

/-- C8 (amended): the expiry test is true iff `exp` is present, positive,
and strictly less than `now`; in particular, whenever `now > 7200` it is
true at `exp = now - 7200`, and it is always false at `exp = now + 7200`. -/
theorem C8_isExpired_positive_iff : ∀ (c : jwtClaims) (now : Int),
    (isExpired c now = true ↔ 0 < c.Exp ∧ c.Exp < now) ∧
    (7200 < now → isExpired { Exp := now - 7200 } now = true) ∧
    isExpired { Exp := now + 7200 } now = false := by
  intro c now
  refine ⟨?_, ?_, ?_⟩
  · unfold isExpired
    simp
  · intro h
    unfold isExpired
    simp only [Bool.and_eq_true, decide_eq_true_eq]
    constructor
    · omega
    · omega
  · unfold isExpired
    simp only [Bool.and_eq_false_iff, decide_eq_false_iff_not]
    right
    omega

/-- Witness for C8: the token two hours from expiry against `now = 10000`. -/
theorem C8_isExpired_positive_iff_witness : isExpired { Exp := 2800 } 10000 = true :=
  (C8_isExpired_positive_iff {} 10000).2.1 (by decide)

/-- C9 (confirmed): login completion is detected by 1-second polling of
every currently open page for a URL on the Bring domain that is off the
login path; the loop succeeds exactly at the first detecting tick within
the 5-minute budget, returns timeout otherwise, and the page selected
afterwards is the first such page. -/
theorem C9_login_polling_spec : ∀ pages : Nat → List (List Char),
    (∀ t, waitForLogin pages = some t ↔
      (loginDetected (pages t) = true ∧
        ∀ s, s < t → (loginDetected (pages s) = false ∧ s ≤ loginDeadlineTicks))) ∧
    (waitForLogin pages = none ↔
      ∀ s, s ≤ loginDeadlineTicks + 1 → loginDetected (pages s) = false) ∧
    (∀ urls, loginDetected urls = true ↔
      ∃ u ∈ urls, isBringURL u = true ∧ containsSubstring u loginPath = false) ∧
    (∀ urls primary u,
      List.find? (fun v => isBringURL v && !containsSubstring v loginPath) urls = some u →
      findBringAppPage urls primary = u) ∧
    loginDeadlineTicks = 300 := by
  intro pages
  refine ⟨?_, ?_, ?_, ?_, rfl⟩
  · intro t
    unfold waitForLogin
    rw [waitFrom_some_iff (fun s => loginDetected (pages s)) loginDeadlineTicks
      (loginDeadlineTicks + 1) 0 (by omega) t]
    constructor
    · rintro ⟨_, h2, h3⟩
      exact ⟨h2, fun s hs => h3 s (Nat.zero_le s) hs⟩
    · rintro ⟨h2, h3⟩
      exact ⟨Nat.zero_le t, h2, fun s _ hs => h3 s hs⟩
  · unfold waitForLogin
    rw [waitFrom_none_iff (fun s => loginDetected (pages s)) loginDeadlineTicks
      (loginDeadlineTicks + 1) 0 (by omega) (by omega)]
    constructor
    · intro hall s hs
      exact hall s (Nat.zero_le s) hs
    · intro hall s _ hs
      exact hall s hs
  · intro urls
    unfold loginDetected
    rw [List.any_eq_true]
    constructor
    · rintro ⟨u, hu, hp⟩
      rw [Bool.and_eq_true, Bool.not_eq_true'] at hp
      exact ⟨u, hu, hp⟩
    · rintro ⟨u, hu, h1, h2⟩
      refine ⟨u, hu, ?_⟩
      rw [Bool.and_eq_true, Bool.not_eq_true']
      exact ⟨h1, h2⟩
  · intro urls primary u h
    unfold findBringAppPage
    rw [h]
    rfl

/-- Witness for C9: a context whose only page is already on the app URL is
detected at tick 0. -/
theorem C9_login_polling_spec_witness :
    waitForLogin (fun _ => ["https://web.getbring.com/app".data]) = some 0 :=
  ((C9_login_polling_spec (fun _ => ["https://web.getbring.com/app".data])).1 0).mpr
    ⟨rfl, fun s hs => absurd hs (Nat.not_lt_zero s)⟩

/-- C10 (counterexample): an `exp` claim of the wrong JSON type — the
string `"7"` — does not yield the zero value: the numeric fallback parses
it and the decoded `Exp` is 7. -/
theorem C10_wrong_type_exp_cex :
    parseJsonBytes ((base64UrlDecode "eyJleHAiOiI3In0".data).getD []) =
      some (Json.obj [("exp", Json.str "7")]) ∧
    decodeJWT tokExpStr = Except.ok { Exp := 7 } ∧ (7 : Int) ≠ 0 :=
  ⟨rfl, rfl, by decide⟩

/-- C10 (amended): for any three-segment token whose middle part decodes
to a JSON object, decoding succeeds; `sub` and `email` get the zero value
`""` when absent or non-string (absence of `sub` is not an error), `exp`
gets 0 when absent, and a present `exp` of any type is coerced through the
numeric fallback (so numeric strings parse to their value). -/
theorem C10_lenient_decode (token : String) (p0 p1 p2 : List Char) (bs : List Nat)
    (fs : List (String × Json))
    (h1 : splitOnChar '.' token.data = [p0, p1, p2])
    (h2 : base64UrlDecode p1 = some bs)
    (h3 : parseJsonBytes bs = some (Json.obj fs)) :
    decodeJWT token =
      Except.ok { Sub := subField fs, Email := emailField fs, Exp := expField fs } ∧
    (lastLookup fs "sub" = none → subField fs = "") ∧
    (∀ v, lastLookup fs "sub" = some v → (∀ s, v ≠ Json.str s) → subField fs = "") ∧
    (lastLookup fs "email" = none → emailField fs = "") ∧
    (∀ v, lastLookup fs "email" = some v → (∀ s, v ≠ Json.str s) → emailField fs = "") ∧
    (lastLookup fs "exp" = none → expField fs = 0) ∧
    (∀ v, lastLookup fs "exp" = some v → expField fs = ratTrunc (toFloat v)) := by
  refine ⟨decodeJWT_obj token p0 p1 p2 bs fs h1 h2 h3, ?_, ?_, ?_, ?_, ?_, ?_⟩
  · intro h
    unfold subField
    rw [h]
  · intro v hv hns
    unfold subField
    rw [hv]
    cases v with
    | null => rfl
    | bool b => rfl
    | num q => rfl
    | str s => exact absurd rfl (hns s)
    | arr a => rfl
    | obj o => rfl
  · intro h
    unfold emailField
    rw [h]
  · intro v hv hns
    unfold emailField
    rw [hv]
    cases v with
    | null => rfl
    | bool b => rfl
    | num q => rfl
    | str s => exact absurd rfl (hns s)
    | arr a => rfl
    | obj o => rfl
  · intro h
    unfold expField
    rw [h]
  · intro v hv
    unfold expField
    rw [hv]

/-- Witness for C10: the token with the empty claims object decodes to all
zero values. -/
theorem C10_lenient_decode_witness : decodeJWT tokEmptyObj = Except.ok {} :=
  (C10_lenient_decode tokEmptyObj "eyJhbGciOiJub25lIn0".data "e30".data []
    [123, 125] [] rfl rfl rfl).1

end Brings
